import Mathlib

/-!
Verification of the country_currency_api refresh/query pipeline.

Shallow embedding of `src/countries/views.py` (refresh_countries,
list_countries), `src/countries/utils.py` and `src/countries/models.py`.

Modelling conventions:
* JSON numbers appearing in exchange rates and the derived GDP are modelled
  as rationals (`ℚ`); the Python code uses floats, but every claim here is
  about the structure of the computation (null vs non-null, which formula,
  which branch), not float rounding.
* A rate-table value is either a value `float()` parses (`RateVal.num q`)
  or one on which `float()` raises `TypeError`/`ValueError`
  (`RateVal.unparsable`).
* `requests` failures (the only exceptions the view catches as 503) are the
  `FetchResult.err` constructor.
* Storage exceptions during `obj.save()` / `Country.objects.create` are
  modelled by an oracle `saveFails : Nat → Bool` indexed by item position;
  an exception inside `utils.generate_summary_image` by a flag `imageFails`.
  `transaction.atomic` rollback is modelled by returning the pre-call store.
* `random.randint(1000, 2000)` (utils.make_multiplier) is modelled by an
  injected multiplier supply `mult : Nat → Nat`; its guaranteed range
  1000 ≤ m ≤ 2000 appears as a hypothesis where a claim needs it.
-/

/-- One entry of a raw country's `currencies` array: only its `code` field is
read by the view.  A JSON-null entry (`currencies[0] or {}`) is `⟨none⟩`. -/
structure RawCurrency where
  code : Option String
deriving DecidableEq, Repr

/-- A raw record from the countries API, with exactly the fields
`refresh_countries` reads via `item.get(...)`. -/
structure RawCountry where
  name : Option String
  capital : Option String
  region : Option String
  population : Option Nat
  flag : Option String
  currencies : Option (List RawCurrency)
deriving DecidableEq, Repr

/-- A rate-table value: either a number that `float()` accepts, or a value on
which `float()` raises `TypeError`/`ValueError`. -/
inductive RateVal where
  | num (q : ℚ)
  | unparsable
deriving DecidableEq, Repr

/-- The rate mapping returned by `utils.fetch_exchange_rates` (the `rates`
dict of the exchange API response). -/
abbrev Rates := List (String × RateVal)

/-- `code in rates` / `rates.get(code)`: first binding of `c` in the table. -/
def lookupRate (rates : Rates) (c : String) : Option RateVal :=
  (rates.find? (fun p => p.1 == c)).map (fun p => p.2)

/-- A stored `Country` row (src/countries/models.py).  The stable id is the
row's position in the store list; `last_refreshed_at` is an abstract
timestamp. -/
structure CountryRec where
  name : String
  capital : Option String
  region : Option String
  population : Nat
  flag_url : Option String
  currency_code : Option String
  exchange_rate : Option ℚ
  estimated_gdp : Option ℚ
  last_refreshed_at : Nat
deriving DecidableEq, Repr

/-- The `(currency_code, exchange_rate, estimated_gdp)` triple derived for one
raw record. -/
structure Derived where
  currency_code : Option String
  exchange_rate : Option ℚ
  estimated_gdp : Option ℚ
deriving DecidableEq, Repr

/-- The currency-handling block of `refresh_countries`
(views.py lines 56–85), for a given population and multiplier:

* empty `currencies` list → `(None, None, 0)`;
* non-empty list: `code = currencies[0].get('code')`, `currency_code = code`;
  `if code and code in rates`: parse the value (`float` failure → rate None);
  `if exchange_rate and exchange_rate != 0`:
  `estimated_gdp = population * multiplier / exchange_rate`, else None;
  otherwise (falsy or unmatched code) rate and gdp are None. -/
def deriveCurrency (rates : Rates) (pop m : Nat) :
    List RawCurrency → Derived
  | [] => ⟨none, none, some 0⟩
  | first :: _ =>
    match first.code with
    | none => ⟨none, none, none⟩
    | some c =>
      if c = "" then ⟨some c, none, none⟩
      else
        match lookupRate rates c with
        | none => ⟨some c, none, none⟩
        | some RateVal.unparsable => ⟨some c, none, none⟩
        | some (RateVal.num q) =>
          if q = 0 then ⟨some c, some q, none⟩
          else ⟨some c, some q, some ((pop : ℚ) * (m : ℚ) / q)⟩

/-- `if not name: continue` — a name qualifies only when present and
non-empty. -/
def validName : Option String → Option String
  | none => none
  | some s => if s = "" then none else some s

/-- Processing of one loop iteration of `refresh_countries` up to the write:
skip the item when the name is falsy, otherwise build the field dict
(`defaults`) with `population = item.get('population') or 0` and the derived
currency triple; `m` is this record's multiplier, `now` the batch
timestamp. -/
def processItem (rates : Rates) (m now : Nat) (item : RawCountry) :
    Option CountryRec :=
  match validName item.name with
  | none => none
  | some n =>
    let pop := item.population.getD 0
    let d := deriveCurrency rates pop m (item.currencies.getD [])
    some { name := n
           capital := item.capital
           region := item.region
           population := pop
           flag_url := item.flag
           currency_code := d.currency_code
           exchange_rate := d.exchange_rate
           estimated_gdp := d.estimated_gdp
           last_refreshed_at := now }

/-- `Country.objects.filter(name__iexact=name)`: case-insensitive name
comparison. -/
def nameMatches (a b : String) : Bool :=
  a.toLower == b.toLower

/-- `.first()` then per-field `setattr` + `save()`: replace the first row
whose name matches case-insensitively; untouched when no row matches. -/
def updateFirst (r : CountryRec) : List CountryRec → List CountryRec
  | [] => []
  | c :: rest =>
    if nameMatches c.name r.name then r :: rest
    else c :: updateFirst r rest

/-- The upsert of one record (views.py lines 87–109): update the first
case-insensitive name match in place, else `Country.objects.create` appends
a new row. -/
def upsert (store : List CountryRec) (r : CountryRec) : List CountryRec :=
  if store.any (fun c => nameMatches c.name r.name) then updateFirst r store
  else store ++ [r]

/-- The refresh loop without failure oracles: fold every raw item into the
store with its per-index multiplier. -/
def processAll (rates : Rates) (mult : Nat → Nat) (now : Nat) :
    List RawCountry → Nat → List CountryRec → List CountryRec
  | [], _, store => store
  | item :: rest, idx, store =>
    match processItem rates (mult idx) now item with
    | none => processAll rates mult now rest (idx + 1) store
    | some r => processAll rates mult now rest (idx + 1) (upsert store r)

/-- The body of the `transaction.atomic()` block: process each item in order
(a storage exception at the write of item `idx` raises), then generate the
summary image (which may raise).  `Except.error` models an exception
escaping the block. -/
def runBody (rates : Rates) (mult : Nat → Nat) (now : Nat)
    (saveFails : Nat → Bool) (imageFails : Bool) :
    List RawCountry → Nat → List CountryRec →
    Except Unit (List CountryRec)
  | [], _, store => if imageFails then .error () else .ok store
  | item :: rest, idx, store =>
    match processItem rates (mult idx) now item with
    | none => runBody rates mult now saveFails imageFails rest (idx + 1) store
    | some r =>
      if saveFails idx then .error ()
      else runBody rates mult now saveFails imageFails rest (idx + 1)
        (upsert store r)

/-- Result of one outbound fetch: `requests` raised (`err`) or returned a
payload. -/
inductive FetchResult (α : Type) where
  | ok (v : α)
  | err
deriving DecidableEq

/-- The HTTP statuses `refresh_countries` can produce. -/
inductive RefreshOutcome where
  | unavailable503
  | internalError500
  | success200
deriving DecidableEq, Repr

/-- Response status of a refresh call together with the store it leaves
behind. -/
structure RefreshResult where
  outcome : RefreshOutcome
  store : List CountryRec
deriving DecidableEq, Repr

/-- `POST /countries/refresh` (views.py lines 13–122): fetch countries then
rates (either failure → 503 before any store access); then run the atomic
block — any exception rolls the store back and returns 500; otherwise the
new store is committed with a 200. -/
def refresh_countries (fc : FetchResult (List RawCountry))
    (fr : FetchResult Rates) (mult : Nat → Nat) (now : Nat)
    (saveFails : Nat → Bool) (imageFails : Bool)
    (store : List CountryRec) : RefreshResult :=
  match fc with
  | .err => ⟨.unavailable503, store⟩
  | .ok items =>
    match fr with
    | .err => ⟨.unavailable503, store⟩
    | .ok rates =>
      match runBody rates mult now saveFails imageFails items 0 store with
      | .error _ => ⟨.internalError500, store⟩
      | .ok s => ⟨.success200, s⟩

/-- `request.GET.get(k)`: first value bound to key `k` in the query string,
`none` when the key is absent. -/
def lookupParam (query : List (String × String)) (k : String) :
    Option String :=
  (query.find? (fun p => p.1 == k)).map (fun p => p.2)

/-- Python truthiness of an optional string parameter (`if region:`). -/
def paramTruthy : Option String → Bool
  | none => false
  | some s => s ≠ ""

/-- `qs.filter(region__iexact=region)` on one row: a NULL column never
matches. -/
def iexactMatch (field : Option String) (v : String) : Bool :=
  match field with
  | none => false
  | some s => s.toLower == v.toLower

/-- Insertion step of `order_by('-estimated_gdp')`: descending by
`estimated_gdp`.  NULLs are placed last (SQL DESC on a nullable column);
the exact NULL placement is irrelevant to the claims proved here. -/
def gdpGE (a b : CountryRec) : Bool :=
  match a.estimated_gdp, b.estimated_gdp with
  | none, none => true
  | none, some _ => false
  | some _, none => true
  | some x, some y => y ≤ x

/-- Insert into a list already sorted by `gdpGE`. -/
def insertByGdp (c : CountryRec) : List CountryRec → List CountryRec
  | [] => [c]
  | d :: rest =>
    if gdpGE c d then c :: d :: rest else d :: insertByGdp c rest

/-- `order_by('-estimated_gdp')`: sort descending by estimated GDP. -/
def sortByGdpDesc (l : List CountryRec) : List CountryRec :=
  l.foldr insertByGdp []

/-- `GET /countries` (views.py lines 125–147): read only the `region`,
`currency` and `sort` parameters; a truthy `region`/`currency` filters
case-insensitively, `sort == 'gdp_desc'` sorts by GDP descending; the
serialized rows are always returned with HTTP 200 — there is no
validation-error or not-found path. -/
def list_countries (store : List CountryRec)
    (query : List (String × String)) : Nat × List CountryRec :=
  let region := lookupParam query "region"
  let currency := lookupParam query "currency"
  let sort := lookupParam query "sort"
  let qs := store
  let qs := if paramTruthy region then
      qs.filter (fun c => iexactMatch c.region (region.getD ""))
    else qs
  let qs := if paramTruthy currency then
      qs.filter (fun c => iexactMatch c.currency_code (currency.getD ""))
    else qs
  let qs := if sort == some "gdp_desc" then sortByGdpDesc qs else qs
  (200, qs)

/-- Case-folded names of the stored rows, in row order (store identity per
the case-insensitive matching of the refresh upsert). -/
def foldedNames (store : List CountryRec) : List String :=
  store.map (fun c => c.name.toLower)

/-- A failure oracle under which no storage write raises. -/
def noFail : Nat → Bool := fun _ => false

/-- C2 counterexample: a currency whose rate parses to the negative number
−2 is non-positive, yet the code stores `exchange_rate = -2` and a non-null
`estimated_gdp` (the guard is `exchange_rate != 0`, not `> 0`), so
"estimatedGdp is null iff the rate is null or non-positive" fails. -/
theorem deriveCurrency_negative_rate_cex :
    (deriveCurrency [("NEG", RateVal.num (-2))] 10 1500
        [⟨some "NEG"⟩]).exchange_rate = some (-2) ∧
    (deriveCurrency [("NEG", RateVal.num (-2))] 10 1500
        [⟨some "NEG"⟩]).estimated_gdp ≠ none ∧
    ¬ (0 : ℚ) < -2 := by
  refine ⟨?_, ?_, by norm_num⟩ <;>
    simp [deriveCurrency, lookupRate]

/-- C2 (amended): for a first currency code matched to a parseable nonzero
rate `q`, the code stores `exchange_rate = q` and
`estimated_gdp = population * multiplier / q` with the multiplier drawn from
[1000, 2000]; and (for any record with a non-empty currency list)
`estimated_gdp` is null iff `exchange_rate` is null or exactly zero — a
negative rate still yields a non-null (negative) GDP. -/
theorem deriveCurrency_gdp_formula (rates : Rates) (pop m : Nat)
    (cur cur2 : RawCurrency) (rest rest2 : List RawCurrency)
    (c : String) (q : ℚ)
    (hm : 1000 ≤ m ∧ m ≤ 2000)
    (hcode : cur.code = some c) (hcne : c ≠ "")
    (hq : lookupRate rates c = some (RateVal.num q)) (hqz : q ≠ 0) :
    ((deriveCurrency rates pop m (cur :: rest)).exchange_rate = some q ∧
     (deriveCurrency rates pop m (cur :: rest)).estimated_gdp
       = some ((pop : ℚ) * (m : ℚ) / q) ∧
     1000 ≤ m ∧ m ≤ 2000) ∧
    ((deriveCurrency rates pop m (cur2 :: rest2)).estimated_gdp = none ↔
      (deriveCurrency rates pop m (cur2 :: rest2)).exchange_rate = none ∨
      (deriveCurrency rates pop m (cur2 :: rest2)).exchange_rate = some 0) := by
  constructor
  · exact ⟨by simp [deriveCurrency, hcode, hcne, hq, hqz],
      by simp [deriveCurrency, hcode, hcne, hq, hqz], hm.1, hm.2⟩
  · cases h2 : cur2.code with
    | none => simp [deriveCurrency, h2]
    | some c2 =>
      by_cases he : c2 = ""
      · simp [deriveCurrency, h2, he]
      · cases hl : lookupRate rates c2 with
        | none => simp [deriveCurrency, h2, he, hl]
        | some rv =>
          cases rv with
          | unparsable => simp [deriveCurrency, h2, he, hl]
          | num q2 =>
            by_cases hz : q2 = 0
            · subst hz; simp [deriveCurrency, h2, he, hl]
            · simp [deriveCurrency, h2, he, hl, hz]

/-- C2 witness: the amended formula at rate 4, population 8,
multiplier 1500. -/
theorem deriveCurrency_gdp_formula_witness :
    (((deriveCurrency [("POS", RateVal.num 4)] 8 1500
        [⟨some "POS"⟩]).exchange_rate = some 4 ∧
     (deriveCurrency [("POS", RateVal.num 4)] 8 1500
        [⟨some "POS"⟩]).estimated_gdp
       = some (((8 : Nat) : ℚ) * ((1500 : Nat) : ℚ) / 4) ∧
     1000 ≤ 1500 ∧ 1500 ≤ 2000) ∧
    ((deriveCurrency [("POS", RateVal.num 4)] 8 1500
        [⟨some "POS"⟩]).estimated_gdp = none ↔
      (deriveCurrency [("POS", RateVal.num 4)] 8 1500
        [⟨some "POS"⟩]).exchange_rate = none ∨
      (deriveCurrency [("POS", RateVal.num 4)] 8 1500
        [⟨some "POS"⟩]).exchange_rate = some 0)) :=
  deriveCurrency_gdp_formula [("POS", RateVal.num 4)] 8 1500
    ⟨some "POS"⟩ ⟨some "POS"⟩ [] [] "POS" 4
    ⟨by norm_num, by norm_num⟩ rfl (by simp)
    (by simp [lookupRate]) (by norm_num)

/-- C3 counterexample: a rate-table value of 0 "fails to parse as a positive
number", yet the code stores `exchange_rate = 0` (not null); only
`estimated_gdp` becomes null. -/
theorem deriveCurrency_zero_rate_cex :
    (deriveCurrency [("ZER", RateVal.num 0)] 5 1500
        [⟨some "ZER"⟩]).exchange_rate = some 0 ∧
    (deriveCurrency [("ZER", RateVal.num 0)] 5 1500
        [⟨some "ZER"⟩]).exchange_rate ≠ none ∧
    (deriveCurrency [("ZER", RateVal.num 0)] 5 1500
        [⟨some "ZER"⟩]).estimated_gdp = none := by
  refine ⟨?_, ?_, ?_⟩ <;> simp [deriveCurrency, lookupRate]

/-- C3 (amended): when the first currency code is absent from the rate
mapping, or its mapped value makes `float()` raise (fails to parse as a
number at all), both `exchange_rate` and `estimated_gdp` are null.  (A value
parsing to a non-positive number is stored as-is — see the
counterexample.) -/
theorem deriveCurrency_unmatched_code (rates : Rates) (pop m : Nat)
    (cur : RawCurrency) (rest : List RawCurrency) (c : String)
    (hcode : cur.code = some c) (hcne : c ≠ "")
    (habs : lookupRate rates c = none ∨
      lookupRate rates c = some RateVal.unparsable) :
    (deriveCurrency rates pop m (cur :: rest)).exchange_rate = none ∧
    (deriveCurrency rates pop m (cur :: rest)).estimated_gdp = none := by
  rcases habs with h | h <;> simp [deriveCurrency, hcode, hcne, h]

/-- C3 witness: a code absent from a singleton rate table. -/
theorem deriveCurrency_unmatched_code_witness :
    (deriveCurrency [("USD", RateVal.num 1)] 5 1500
        [⟨some "XXX"⟩]).exchange_rate = none ∧
    (deriveCurrency [("USD", RateVal.num 1)] 5 1500
        [⟨some "XXX"⟩]).estimated_gdp = none :=
  deriveCurrency_unmatched_code [("USD", RateVal.num 1)] 5 1500
    ⟨some "XXX"⟩ [] "XXX" rfl (by simp)
    (Or.inl (by simp [lookupRate]))

/-- C4: a raw record with an absent or empty `currencies` list is stored
with `currency_code = null`, `exchange_rate = null` and
`estimated_gdp = 0` exactly (zero, not null). -/
theorem processItem_empty_currencies (rates : Rates) (m now : Nat)
    (item : RawCountry) (n : String)
    (hname : item.name = some n) (hn : n ≠ "")
    (hcur : item.currencies = none ∨ item.currencies = some []) :
    ∃ rec, processItem rates m now item = some rec ∧
      rec.currency_code = none ∧ rec.exchange_rate = none ∧
      rec.estimated_gdp = some 0 := by
  rcases hcur with h | h <;>
    exact ⟨{ name := n, capital := item.capital, region := item.region,
             population := item.population.getD 0, flag_url := item.flag,
             currency_code := none, exchange_rate := none,
             estimated_gdp := some 0, last_refreshed_at := now },
      by simp [processItem, validName, hname, hn, h, deriveCurrency],
      rfl, rfl, rfl⟩

/-- A sample stored row used to instantiate store-shaped hypotheses. -/
def sampleRow : CountryRec :=
  { name := "France", capital := some "Paris", region := some "Europe"
    population := 67, flag_url := none, currency_code := some "EUR"
    exchange_rate := some 1, estimated_gdp := some 100
    last_refreshed_at := 3 }

/-- C5: if either external fetch raises, the refresh returns 503 and the
store is exactly what it was before the call — the transaction is never
opened. -/
theorem refresh_fetch_failure_503 (fc : FetchResult (List RawCountry))
    (fr : FetchResult Rates) (mult : Nat → Nat) (now : Nat)
    (sf : Nat → Bool) (imgf : Bool) (store : List CountryRec)
    (h : fc = FetchResult.err ∨ fr = FetchResult.err) :
    refresh_countries fc fr mult now sf imgf store
      = ⟨RefreshOutcome.unavailable503, store⟩ := by
  rcases h with h | h
  · subst h; rfl
  · subst h; cases fc <;> rfl

/-- C5 witness: a failing countries fetch against a non-empty store. -/
theorem refresh_fetch_failure_503_witness :
    refresh_countries FetchResult.err (FetchResult.ok []) (fun _ => 1500) 7
      noFail false [sampleRow]
      = ⟨RefreshOutcome.unavailable503, [sampleRow]⟩ :=
  refresh_fetch_failure_503 FetchResult.err (FetchResult.ok [])
    (fun _ => 1500) 7 noFail false [sampleRow] (Or.inl rfl)

/-- C6: any exception escaping the atomic block (in particular a storage
exception at one of the writes) rolls the whole transaction back — the
visible store is the pre-call one — and the endpoint returns 500. -/
theorem refresh_storage_failure_500 (rates : Rates) (mult : Nat → Nat)
    (now : Nat) (sf : Nat → Bool) (imgf : Bool)
    (store : List CountryRec) (items : List RawCountry)
    (h : runBody rates mult now sf imgf items 0 store = Except.error ()) :
    refresh_countries (FetchResult.ok items) (FetchResult.ok rates)
      mult now sf imgf store = ⟨RefreshOutcome.internalError500, store⟩ := by
  simp [refresh_countries, h]

/-- C6 witness: the write of the first record raises; the pre-existing row
is untouched and the status is 500. -/
theorem refresh_storage_failure_500_witness :
    refresh_countries
      (FetchResult.ok [⟨some "Spain", none, none, some 10, none, none⟩])
      (FetchResult.ok []) (fun _ => 1500) 7 (fun _ => true) false [sampleRow]
      = ⟨RefreshOutcome.internalError500, [sampleRow]⟩ :=
  refresh_storage_failure_500 [] (fun _ => 1500) 7 (fun _ => true) false
    [sampleRow] [⟨some "Spain", none, none, some 10, none, none⟩] rfl

/-- C10: `generate_summary_image` is called inside `transaction.atomic()`,
so when both fetches succeed and every record write succeeds, an exception
while generating the image still rolls back all of this refresh's writes
(the store is unchanged) and the endpoint returns 500. -/
theorem refresh_image_failure_rolls_back (rates : Rates)
    (mult : Nat → Nat) (now : Nat) (store : List CountryRec)
    (items : List RawCountry) (sf : Nat → Bool)
    (hsf : ∀ i, sf i = false) :
    refresh_countries (FetchResult.ok items) (FetchResult.ok rates)
      mult now sf true store = ⟨RefreshOutcome.internalError500, store⟩ := by
  have hb : ∀ its idx st,
      runBody rates mult now sf true its idx st = Except.error () := by
    intro its
    induction its with
    | nil => intro idx st; rfl
    | cons item rest ih =>
      intro idx st
      simp only [runBody]
      cases hpi : processItem rates (mult idx) now item with
      | none => exact ih _ _
      | some r =>
        simp only [hsf idx, Bool.false_eq_true, if_false]
        exact ih _ _
  simp [refresh_countries, hb items 0 store]

/-- C10 witness: one valid record, no storage failure, image generation
raises: the record's write is rolled back (store stays `[sampleRow]`). -/
theorem refresh_image_failure_rolls_back_witness :
    refresh_countries
      (FetchResult.ok [⟨some "Ghana", none, none, some 31, none, none⟩])
      (FetchResult.ok []) (fun _ => 1500) 7 noFail true [sampleRow]
      = ⟨RefreshOutcome.internalError500, [sampleRow]⟩ :=
  refresh_image_failure_rolls_back [] (fun _ => 1500) 7 [sampleRow]
    [⟨some "Ghana", none, none, some 31, none, none⟩] noFail (fun _ => rfl)

/-- C1 counterexample: both fetches succeed but the single record has an
empty name, so zero records qualify; the code still commits the (empty)
transaction and answers 200 — a success status and not any error status —
rather than the claimed batch-level 400. -/
theorem refresh_all_invalid_cex :
    refresh_countries
      (FetchResult.ok [⟨some "", none, none, none, none, none⟩])
      (FetchResult.ok []) (fun _ => 1500) 7 noFail false []
      = ⟨RefreshOutcome.success200, []⟩ ∧
    RefreshOutcome.success200 ≠ RefreshOutcome.internalError500 ∧
    RefreshOutcome.success200 ≠ RefreshOutcome.unavailable503 :=
  ⟨rfl, by decide, by decide⟩

/-- C1 (amended): when both fetches succeed but every fetched record fails
the per-record name validation, the refresh performs zero writes (the store
total is unchanged) but commits the no-op and returns 200 success, not a
batch-level 400. -/
theorem refresh_all_invalid_commits_noop (rates : Rates)
    (mult : Nat → Nat) (now : Nat) (sf : Nat → Bool)
    (store : List CountryRec) (items : List RawCountry)
    (h : ∀ item ∈ items, validName item.name = none) :
    refresh_countries (FetchResult.ok items) (FetchResult.ok rates)
      mult now sf false store = ⟨RefreshOutcome.success200, store⟩ := by
  have hb : ∀ its, (∀ item ∈ its, validName item.name = none) → ∀ idx,
      runBody rates mult now sf false its idx store = Except.ok store := by
    intro its
    induction its with
    | nil => intro _ idx; rfl
    | cons item rest ih =>
      intro hall idx
      have hpi : processItem rates (mult idx) now item = none := by
        simp [processItem, hall item (List.mem_cons_self item rest)]
      simp only [runBody, hpi]
      exact ih (fun it hit => hall it (List.mem_cons_of_mem item hit)) (idx + 1)
  simp [refresh_countries, hb items h 0]

/-- C1 witness: a refresh whose only record lacks a name leaves the
one-row store untouched and returns 200. -/
theorem refresh_all_invalid_commits_noop_witness :
    refresh_countries
      (FetchResult.ok [⟨none, none, none, some 3, none, none⟩])
      (FetchResult.ok []) (fun _ => 1500) 9 noFail false [sampleRow]
      = ⟨RefreshOutcome.success200, [sampleRow]⟩ :=
  refresh_all_invalid_commits_noop [] (fun _ => 1500) 9 noFail [sampleRow]
    [⟨none, none, none, some 3, none, none⟩]
    (by intro it hit; rw [List.mem_singleton] at hit; subst hit; rfl)

/-- C4 witness: the spec's own example record `Nowhere` with an empty
currency list. -/
theorem processItem_empty_currencies_witness :
    ∃ rec, processItem [] 1500 7
        ⟨some "Nowhere", none, none, some 500, none, some []⟩ = some rec ∧
      rec.currency_code = none ∧ rec.exchange_rate = none ∧
      rec.estimated_gdp = some 0 :=
  processItem_empty_currencies [] 1500 7
    ⟨some "Nowhere", none, none, some 500, none, some []⟩ "Nowhere"
    rfl (by simp) (Or.inr rfl)

/-- C8 counterexample: on an empty store with no filters the list endpoint
answers 200 with an empty array, not the claimed 404. -/
theorem list_countries_empty_cex :
    list_countries [] [] = (200, []) ∧ (200 : Nat) ≠ 404 :=
  ⟨rfl, by decide⟩

/-- C8 (amended): when the fully filtered, sorted result set is empty, the
list endpoint still returns HTTP 200 with the empty array — the code has no
not-found branch at all. -/
theorem list_countries_empty_200 (store : List CountryRec)
    (query : List (String × String))
    (h : (list_countries store query).2 = []) :
    (list_countries store query).1 = 200 ∧
    (list_countries store query).2 = [] :=
  ⟨rfl, h⟩

/-- A stored row with no region and no currency data. -/
def plainRow : CountryRec :=
  { name := "Atlantis", capital := none, region := none, population := 5
    flag_url := none, currency_code := none, exchange_rate := none
    estimated_gdp := none, last_refreshed_at := 1 }

/-- C8 witness: a region filter matching no row of a one-row store. -/
theorem list_countries_empty_200_witness :
    (list_countries [plainRow] [("region", "Asia")]).1 = 200 ∧
    (list_countries [plainRow] [("region", "Asia")]).2 = [] :=
  list_countries_empty_200 [plainRow] [("region", "Asia")] rfl

/-- `request.GET.get` skips a leading binding whose key differs. -/
theorem lookupParam_cons_ne (k v key : String)
    (query : List (String × String)) (h : k ≠ key) :
    lookupParam ((k, v) :: query) key = lookupParam query key := by
  simp [lookupParam, List.find?, beq_eq_false_iff_ne.mpr h]

/-- C9 counterexample: a query consisting solely of the unknown key `bogus`
is silently ignored — the endpoint returns 200 with the unfiltered rows, not
the claimed 400 naming `bogus`. -/
theorem list_countries_unknown_key_cex :
    list_countries [sampleRow] [("bogus", "1")] = (200, [sampleRow]) ∧
    (200 : Nat) ≠ 400 :=
  ⟨rfl, by decide⟩

/-- C9 (amended): the code reads only the `region`, `currency` and `sort`
parameters; any other query key is ignored (the response is identical with
or without it) and the status is always 200 — there is no filter-key
validation and no 400 path. -/
theorem list_countries_ignores_unknown_key (store : List CountryRec)
    (query : List (String × String)) (k v : String)
    (hk : k ≠ "region" ∧ k ≠ "currency" ∧ k ≠ "sort") :
    list_countries store ((k, v) :: query) = list_countries store query ∧
    (list_countries store ((k, v) :: query)).1 = 200 := by
  refine ⟨?_, rfl⟩
  simp only [list_countries, lookupParam_cons_ne k v "region" query hk.1,
    lookupParam_cons_ne k v "currency" query hk.2.1,
    lookupParam_cons_ne k v "sort" query hk.2.2]

/-- C9 witness: prepending `foo=x` to a region query changes nothing. -/
theorem list_countries_ignores_unknown_key_witness :
    list_countries [sampleRow] [("foo", "x"), ("region", "Europe")]
      = list_countries [sampleRow] [("region", "Europe")] ∧
    (list_countries [sampleRow] [("foo", "x"), ("region", "Europe")]).1
      = 200 :=
  list_countries_ignores_unknown_key [sampleRow] [("region", "Europe")]
    "foo" "x" ⟨by decide, by decide, by decide⟩

/-- Replacing the first case-insensitive match in place never changes the
list of case-folded names. -/
theorem updateFirst_foldedNames (r : CountryRec) (store : List CountryRec) :
    foldedNames (updateFirst r store) = foldedNames store := by
  induction store with
  | nil => rfl
  | cons c rest ih =>
    simp only [updateFirst]
    by_cases h : nameMatches c.name r.name = true
    · rw [if_pos h]
      have hc : c.name.toLower = r.name.toLower := by
        simpa [nameMatches] using h
      simp [foldedNames, hc]
    · rw [if_neg h]
      show c.name.toLower :: foldedNames (updateFirst r rest)
          = c.name.toLower :: foldedNames rest
      rw [ih]

/-- The existence test of the upsert is exactly membership of the incoming
record's folded name among the stored folded names. -/
theorem any_nameMatches_iff (store : List CountryRec) (r : CountryRec) :
    (store.any fun c => nameMatches c.name r.name) = true ↔
      r.name.toLower ∈ foldedNames store := by
  simp only [List.any_eq_true, nameMatches, beq_iff_eq, foldedNames,
    List.mem_map]

/-- Upserting a record whose folded name is already stored keeps the folded
names unchanged. -/
theorem upsert_foldedNames_mem (store : List CountryRec) (r : CountryRec)
    (h : r.name.toLower ∈ foldedNames store) :
    foldedNames (upsert store r) = foldedNames store := by
  rw [upsert, if_pos ((any_nameMatches_iff store r).mpr h)]
  exact updateFirst_foldedNames r store

/-- Upserting a record with a new folded name appends exactly that name. -/
theorem upsert_foldedNames_notmem (store : List CountryRec) (r : CountryRec)
    (h : r.name.toLower ∉ foldedNames store) :
    foldedNames (upsert store r) = foldedNames store ++ [r.name.toLower] := by
  rw [upsert, if_neg (fun hc => h ((any_nameMatches_iff store r).mp hc))]
  simp [foldedNames]

/-- A stored folded name survives any upsert. -/
theorem upsert_foldedNames_sub (store : List CountryRec) (r : CountryRec) :
    foldedNames store ⊆ foldedNames (upsert store r) := by
  by_cases h : r.name.toLower ∈ foldedNames store
  · rw [upsert_foldedNames_mem store r h]
    exact fun a ha => ha
  · rw [upsert_foldedNames_notmem store r h]
    exact List.subset_append_left _ _

/-- After an upsert the incoming record's folded name is stored. -/
theorem upsert_foldedNames_self (store : List CountryRec) (r : CountryRec) :
    r.name.toLower ∈ foldedNames (upsert store r) := by
  by_cases h : r.name.toLower ∈ foldedNames store
  · rw [upsert_foldedNames_mem store r h]; exact h
  · rw [upsert_foldedNames_notmem store r h]; simp

/-- The upsert preserves "at most one row per folded name". -/
theorem upsert_foldedNames_nodup (store : List CountryRec) (r : CountryRec)
    (h : (foldedNames store).Nodup) :
    (foldedNames (upsert store r)).Nodup := by
  by_cases hm : r.name.toLower ∈ foldedNames store
  · rw [upsert_foldedNames_mem store r hm]; exact h
  · rw [upsert_foldedNames_notmem store r hm]
    rw [List.nodup_append]
    exact ⟨h, List.nodup_singleton _,
      fun a ha hb => hm (by rwa [List.mem_singleton.mp hb] at ha)⟩

/-- A produced record carries the item's validated name. -/
theorem processItem_name (rates : Rates) (m now : Nat) (item : RawCountry)
    (rec : CountryRec) (h : processItem rates m now item = some rec) :
    validName item.name = some rec.name := by
  cases hv : validName item.name with
  | none => simp [processItem, hv] at h
  | some n =>
    simp only [processItem, hv, Option.some.injEq] at h
    subst h
    rfl

/-- Folded names already stored survive the whole refresh loop. -/
theorem processAll_foldedNames_sub (rates : Rates) (mult : Nat → Nat)
    (now : Nat) :
    ∀ (items : List RawCountry) (idx : Nat) (store : List CountryRec),
      foldedNames store
        ⊆ foldedNames (processAll rates mult now items idx store) := by
  intro items
  induction items with
  | nil => intro idx store; exact fun a ha => ha
  | cons item rest ih =>
    intro idx store
    simp only [processAll]
    cases hpi : processItem rates (mult idx) now item with
    | none => exact ih _ _
    | some r => exact (upsert_foldedNames_sub store r).trans (ih _ _)

/-- Every item with a valid name ends up (case-folded) in the store the
refresh loop produces. -/
theorem processAll_contains_valid (rates : Rates) (mult : Nat → Nat)
    (now : Nat) :
    ∀ (items : List RawCountry) (idx : Nat) (store : List CountryRec)
      (item : RawCountry) (n : String), item ∈ items →
      validName item.name = some n →
      n.toLower ∈ foldedNames (processAll rates mult now items idx store) := by
  intro items
  induction items with
  | nil =>
    intro idx store item n h
    exact absurd h (List.not_mem_nil item)
  | cons it rest ih =>
    intro idx store item n hmem hv
    rcases List.mem_cons.mp hmem with rfl | hmem'
    · simp only [processAll]
      cases hpi : processItem rates (mult idx) now item with
      | none => simp [processItem, hv] at hpi
      | some r =>
        have hn : some n = some r.name := by
          rw [← hv, processItem_name rates (mult idx) now item r hpi]
        rw [Option.some.inj hn]
        exact processAll_foldedNames_sub rates mult now rest (idx + 1)
          (upsert store r) (upsert_foldedNames_self store r)
    · simp only [processAll]
      cases hpi : processItem rates (mult idx) now it with
      | none => exact ih _ _ item n hmem' hv
      | some r => exact ih _ _ item n hmem' hv

/-- When every item's folded name is already stored, the refresh loop only
updates in place: the folded-name list is literally unchanged. -/
theorem processAll_foldedNames_stable (rates : Rates) (mult : Nat → Nat)
    (now : Nat) :
    ∀ (items : List RawCountry) (idx : Nat) (store : List CountryRec),
      (∀ item ∈ items, ∀ n, validName item.name = some n →
        n.toLower ∈ foldedNames store) →
      foldedNames (processAll rates mult now items idx store)
        = foldedNames store := by
  intro items
  induction items with
  | nil => intro idx store _; rfl
  | cons it rest ih =>
    intro idx store hall
    simp only [processAll]
    cases hpi : processItem rates (mult idx) now it with
    | none =>
      exact ih _ _ fun item hm n hv =>
        hall item (List.mem_cons_of_mem it hm) n hv
    | some r =>
      have hn : validName it.name = some r.name :=
        processItem_name rates (mult idx) now it r hpi
      have hmem : r.name.toLower ∈ foldedNames store :=
        hall it (List.mem_cons_self it rest) r.name hn
      have hupd := upsert_foldedNames_mem store r hmem
      have hrec := ih (idx + 1) (upsert store r) fun item hm n hv => by
        rw [hupd]; exact hall item (List.mem_cons_of_mem it hm) n hv
      exact hrec.trans hupd

/-- The refresh loop preserves "at most one row per folded name". -/
theorem processAll_foldedNames_nodup (rates : Rates) (mult : Nat → Nat)
    (now : Nat) :
    ∀ (items : List RawCountry) (idx : Nat) (store : List CountryRec),
      (foldedNames store).Nodup →
      (foldedNames (processAll rates mult now items idx store)).Nodup := by
  intro items
  induction items with
  | nil => intro idx store h; exact h
  | cons it rest ih =>
    intro idx store h
    simp only [processAll]
    cases hpi : processItem rates (mult idx) now it with
    | none => exact ih _ _ h
    | some r => exact ih _ _ (upsert_foldedNames_nodup store r h)

/-- With no storage failure and no image failure the atomic block succeeds
and commits exactly the result of the refresh loop. -/
theorem runBody_noFail (rates : Rates) (mult : Nat → Nat) (now : Nat) :
    ∀ (items : List RawCountry) (idx : Nat) (store : List CountryRec),
      runBody rates mult now noFail false items idx store
        = Except.ok (processAll rates mult now items idx store) := by
  intro items
  induction items with
  | nil => intro idx store; rfl
  | cons it rest ih =>
    intro idx store
    simp only [runBody, processAll]
    cases hpi : processItem rates (mult idx) now it with
    | none => exact ih _ _
    | some r =>
      simp only [noFail, Bool.false_eq_true, if_false]
      exact ih _ _

/-- A failure-free refresh with both fetches up returns 200 and commits the
loop's store. -/
theorem refresh_noFail (rates : Rates) (mult : Nat → Nat) (now : Nat)
    (store : List CountryRec) (items : List RawCountry) :
    refresh_countries (FetchResult.ok items) (FetchResult.ok rates)
      mult now noFail false store
      = ⟨RefreshOutcome.success200,
         processAll rates mult now items 0 store⟩ := by
  simp [refresh_countries, runBody_noFail rates mult now items 0 store]

/-- C7: refreshing is idempotent on store identity — running the refresh a
second time over the same fetched input with the same multiplier supply
leaves the list of case-folded stored names (hence the row count) exactly
as after the first run, because every second-run record is a
case-insensitive match updated in place; and a store with at most one row
per folded name keeps that invariant. -/
theorem refresh_idempotent_folded_names (rates : Rates) (mult : Nat → Nat)
    (now1 now2 : Nat) (store : List CountryRec) (items : List RawCountry)
    (h : (foldedNames store).Nodup) :
    foldedNames (refresh_countries (FetchResult.ok items)
        (FetchResult.ok rates) mult now2 noFail false
        ((refresh_countries (FetchResult.ok items) (FetchResult.ok rates)
          mult now1 noFail false store).store)).store
      = foldedNames ((refresh_countries (FetchResult.ok items)
          (FetchResult.ok rates) mult now1 noFail false store).store) ∧
    (refresh_countries (FetchResult.ok items) (FetchResult.ok rates)
        mult now2 noFail false
        ((refresh_countries (FetchResult.ok items) (FetchResult.ok rates)
          mult now1 noFail false store).store)).store.length
      = ((refresh_countries (FetchResult.ok items) (FetchResult.ok rates)
          mult now1 noFail false store).store).length ∧
    (foldedNames ((refresh_countries (FetchResult.ok items)
        (FetchResult.ok rates) mult now1 noFail false store).store)).Nodup := by
  simp only [refresh_noFail]
  have hstable : foldedNames (processAll rates mult now2 items 0
      (processAll rates mult now1 items 0 store))
      = foldedNames (processAll rates mult now1 items 0 store) :=
    processAll_foldedNames_stable rates mult now2 items 0
      (processAll rates mult now1 items 0 store)
      (fun item hm n hv =>
        processAll_contains_valid rates mult now1 items 0 store item n hm hv)
  refine ⟨hstable, ?_, processAll_foldedNames_nodup rates mult now1 items 0
    store h⟩
  have := congrArg List.length hstable
  simpa [foldedNames] using this

/-- C7 witness: two raw records that are the same name in different case,
refreshed twice from an empty store. -/
theorem refresh_idempotent_folded_names_witness :
    foldedNames (refresh_countries (FetchResult.ok
        [⟨some "France", none, none, none, none, none⟩,
         ⟨some "FRANCE", none, none, some 5, none, none⟩])
        (FetchResult.ok []) (fun _ => 1500) 2 noFail false
        ((refresh_countries (FetchResult.ok
          [⟨some "France", none, none, none, none, none⟩,
           ⟨some "FRANCE", none, none, some 5, none, none⟩])
          (FetchResult.ok []) (fun _ => 1500) 1 noFail false []).store)).store
      = foldedNames ((refresh_countries (FetchResult.ok
          [⟨some "France", none, none, none, none, none⟩,
           ⟨some "FRANCE", none, none, some 5, none, none⟩])
          (FetchResult.ok []) (fun _ => 1500) 1 noFail false []).store) ∧
    (refresh_countries (FetchResult.ok
        [⟨some "France", none, none, none, none, none⟩,
         ⟨some "FRANCE", none, none, some 5, none, none⟩])
        (FetchResult.ok []) (fun _ => 1500) 2 noFail false
        ((refresh_countries (FetchResult.ok
          [⟨some "France", none, none, none, none, none⟩,
           ⟨some "FRANCE", none, none, some 5, none, none⟩])
          (FetchResult.ok []) (fun _ => 1500) 1 noFail false []).store)).store.length
      = ((refresh_countries (FetchResult.ok
          [⟨some "France", none, none, none, none, none⟩,
           ⟨some "FRANCE", none, none, some 5, none, none⟩])
          (FetchResult.ok []) (fun _ => 1500) 1 noFail false []).store).length ∧
    (foldedNames ((refresh_countries (FetchResult.ok
        [⟨some "France", none, none, none, none, none⟩,
         ⟨some "FRANCE", none, none, some 5, none, none⟩])
        (FetchResult.ok []) (fun _ => 1500) 1 noFail false []).store)).Nodup :=
  refresh_idempotent_folded_names [] (fun _ => 1500) 1 2 []
    [⟨some "France", none, none, none, none, none⟩,
     ⟨some "FRANCE", none, none, some 5, none, none⟩] (by decide)
